import Mathlib

/-! Verification development for the netlist-to-schematic reconstruction
extension (src/src/index.ts).  The TypeScript source is shallowly embedded:
JavaScript numbers are modelled as rationals, external host calls
(device-library lookups, primitive creation, pin queries) are modelled as
explicit environments passed to the embedded functions, and the
orchestrator loop of rebuildSchematic is modelled as a fold over the
netlist entries paired with the per-component environment. -/

namespace NetlistSchematic

/-- Device reference returned by the host device library: a uuid and a
display name. -/
structure Device where
  uuid : String
  name : String
deriving Repr, DecidableEq

/-- The props block of one netlist component record.  The field
supplierPart embeds the JSON key written as Supplier Part in the source. -/
structure NetlistProps where
  Designator : String
  device_name : String
  value : String
  supplierPart : String
deriving Repr, DecidableEq

/-- One netlist component record: its props and the ordered pin map from
pin number to net name. -/
structure NetlistComponent where
  props : NetlistProps
  pins : List (String × String)
deriving Repr, DecidableEq

/-- A realized pin of a placed symbol instance, in absolute coordinates. -/
structure Pin where
  pinNumber : String
  x : ℚ
  y : ℚ
deriving Repr, DecidableEq

/-- The ComponentLayout record built by placeComponent in the source. -/
structure ComponentLayout where
  primitiveId : String
  componentId : String
  x : ℚ
  y : ℚ
  width : ℚ
  height : ℚ
  pins : List Pin
deriving Repr, DecidableEq

/-- The device library environment: results of the two host lookups
used by findDeviceInfo (getByLcscIds and search). -/
structure DeviceLib where
  getByLcscIds : String → List Device
  search : String → List Device

/-- Embeds findDeviceInfo (src/src/index.ts lines 211-238), additionally
recording in the second component whether the name-search path was invoked.
Stage 1 runs when the Supplier Part string is truthy (non-empty) and
returns the first lookup result if the result list is non-empty; otherwise
stage 2 runs when device_name is truthy and returns the first search
result of a non-empty result list; otherwise the result is none. -/
def findDeviceInfoT (lib : DeviceLib) (component : NetlistComponent) :
    Option Device × Bool :=
  let nameStage : Option Device × Bool :=
    if component.props.device_name ≠ "" then
      match lib.search component.props.device_name with
      | d :: _ => (some d, true)
      | [] => (none, true)
    else (none, false)
  if component.props.supplierPart ≠ "" then
    match lib.getByLcscIds component.props.supplierPart with
    | d :: _ => (some d, false)
    | [] => nameStage
  else nameStage

/-- The device actually resolved by findDeviceInfo. -/
def findDeviceInfo (lib : DeviceLib) (component : NetlistComponent) :
    Option Device :=
  (findDeviceInfoT lib component).1

/-- Embeds calculateComponentSize (lines 265-279): the four running
extrema are initialized to the placement coordinate (x, y) and folded over
the pin list exactly as the source loop does; the result is
(maxX - minX, maxY - minY). -/
def calculateComponentSize (pins : List Pin) (x y : ℚ) : ℚ × ℚ :=
  let b := pins.foldl
    (fun (b : ℚ × ℚ × ℚ × ℚ) pin =>
      (min b.1 pin.x, max b.2.1 pin.x, min b.2.2.1 pin.y, max b.2.2.2 pin.y))
    (x, x, y, y)
  (b.2.1 - b.1, b.2.2.2 - b.2.2.1)

/-- The attribute object assembled by modifyComponentProperties
(lines 243-260): designator is included only when the Designator string is
truthy and non-empty after trimming, name likewise from the value field. -/
structure ModifyProps where
  designator : Option String
  name : Option String
deriving Repr, DecidableEq

/-- Model of the JavaScript trim call: strip leading and trailing
whitespace characters. -/
def jsTrim (s : String) : String :=
  { data :=
      ((s.data.dropWhile Char.isWhitespace).reverse.dropWhile
        Char.isWhitespace).reverse }

/-- Embeds the modifyProps construction of modifyComponentProperties. -/
def modifyComponentProperties (component : NetlistComponent) : ModifyProps :=
  { designator :=
      if component.props.Designator ≠ "" ∧ jsTrim component.props.Designator ≠ ""
      then some component.props.Designator else none
  , name :=
      if component.props.value ≠ "" ∧ jsTrim component.props.value ≠ ""
      then some component.props.value else none }

/-- Environment of one placeComponent call: the device library, whether
sch_PrimitiveComponent.create returns an instance, the primitive id of
that instance, whether the best-effort attribute mutation call succeeds
(its failure is swallowed by the source), and the pin-query result, which
the host may return as null (none). -/
structure PlaceEnv where
  lib : DeviceLib
  createOk : Bool
  primitiveId : String
  modifyOk : Bool
  pinsResult : Option (List Pin)

/-- Embeds placeComponent (lines 284-337): resolve the device, create the
instance, apply the best-effort attribute mutation (whose outcome is
ignored), fetch the pins, derive the bounding box, and build the layout
record with pins defaulted to the empty list when the host returned null. -/
def placeComponent (env : PlaceEnv) (component : NetlistComponent)
    (x y : ℚ) (componentId : String) : Option ComponentLayout :=
  match findDeviceInfo env.lib component with
  | none => none
  | some _ =>
    if env.createOk then
      let size := calculateComponentSize (env.pinsResult.getD []) x y
      some { primitiveId := env.primitiveId, componentId := componentId,
             x := x, y := y, width := size.1, height := size.2,
             pins := env.pinsResult.getD [] }
    else none

/-- Model of the JavaScript toUpperCase call on the basic latin range:
each character is mapped through Char.toUpper. -/
def jsToUpperCase (s : String) : String :=
  { data := s.data.map Char.toUpper }

/-- Model of the JavaScript toLowerCase call on the basic latin range. -/
def jsToLowerCase (s : String) : String :=
  { data := s.data.map Char.toLower }

/-- The fixed stub length constant wireLength of the source (line 364). -/
def wireLength : ℚ := 30

/-- A synthesized labeled wire stub, as passed to sch_PrimitiveWire.create. -/
structure Wire where
  x1 : ℚ
  y1 : ℚ
  x2 : ℚ
  y2 : ℚ
  label : String
deriving Repr, DecidableEq

/-- Embeds the per-pin stub construction of
createNetWiresForSingleComponent (lines 360-389): the start point is the
realized pin, the end point extends horizontally by wireLength, rightward
when the pin x is at least the component center and leftward otherwise,
and the label is the net name in upper case. -/
def makeWireStub (component : ComponentLayout) (pin : Pin)
    (netName : String) : Wire :=
  let pinX := pin.x
  let pinY := pin.y
  let componentCenter := component.x + component.width / 2
  let endX := if pinX ≥ componentCenter then pinX + wireLength
              else pinX - wireLength
  { x1 := pinX, y1 := pinY, x2 := endX, y2 := pinY,
    label := jsToUpperCase netName }

/-- The loop body of createNetWiresForSingleComponent over the declared
pin map: each (pinNumber, netName) entry is matched against the realized
pins by exact pin-number equality; a match emits one stub, a miss is
skipped, and a null realized-pin list (none) skips every entry. -/
def wiresForPins (component : ComponentLayout)
    (entries : List (String × String)) (actualPins : Option (List Pin)) :
    List Wire :=
  entries.filterMap (fun entry =>
    match actualPins with
    | none => none
    | some pins =>
      match pins.find? (fun pin => pin.pinNumber == entry.1) with
      | some actualPin => some (makeWireStub component actualPin entry.2)
      | none => none)

/-- Lookup of the netlist record for a component id, as the source's
indexing netlistData[component.componentId]. -/
def lookupComponent (netlistData : List (String × NetlistComponent))
    (componentId : String) : Option NetlistComponent :=
  (netlistData.find? (fun e => e.1 == componentId)).map Prod.snd

/-- Embeds createNetWiresForSingleComponent (lines 342-402): look up the
netlist record of the placed component and synthesize one stub per
matched pin entry. -/
def createNetWiresForSingleComponent (component : ComponentLayout)
    (netlistData : List (String × NetlistComponent))
    (actualPins : Option (List Pin)) : List Wire :=
  match lookupComponent netlistData component.componentId with
  | none => []
  | some componentData => wiresForPins component componentData.pins actualPins

/-- The grid cell pitch constant of rebuildSchematic (line 138). -/
def gridSize : ℚ := 100

/-- The row capacity constant of rebuildSchematic (line 141). -/
def maxComponentsPerRow : Nat := 15

/-- The wire-synthesis step of one loop iteration of rebuildSchematic:
either the call into createNetWiresForSingleComponent raises (its pin
query rejecting, for example), reaching the per-component catch block, or
it completes with the given realized-pin query result. -/
inductive WireStep where
  | throws
  | ok (actualPins : Option (List Pin))

/-- True when the wire-synthesis step raises. -/
def wireThrows : WireStep → Bool
  | .throws => true
  | .ok _ => false

/-- Per-component external environment of one rebuildSchematic iteration. -/
structure CompEnv where
  place : PlaceEnv
  wire : WireStep

/-- One netlist entry paired with the external behaviour its iteration
observes. -/
abbrev Entry := (String × NetlistComponent) × CompEnv

/-- The mutable state of the rebuildSchematic loop (lines 136-142):
the accumulated layouts, the failure list, the grid cursor and the
attempt counter. -/
structure RebuildState where
  components : List ComponentLayout
  notFoundComponents : List String
  currentX : ℚ
  currentY : ℚ
  componentCount : Nat

/-- The loop state before the first iteration. -/
def initialState : RebuildState :=
  { components := [], notFoundComponents := [],
    currentX := 20, currentY := 20, componentCount := 0 }

/-- The position-advance block of rebuildSchematic (lines 170-179):
increment the counter, and either wrap to a new row or step to the next
column. -/
def advance (s : RebuildState) : RebuildState :=
  let c := s.componentCount + 1
  if c % maxComponentsPerRow = 0 then
    { s with componentCount := c, currentX := 20,
             currentY := s.currentY + gridSize * 2 }
  else
    { s with componentCount := c, currentX := s.currentX + gridSize * 3 }

/-- One iteration of the rebuildSchematic loop (lines 154-188).  A
successful placement appends the layout; if the following wire synthesis
raises, control reaches the catch block, which records the designator and,
crucially, skips the position-advance block.  A null placement records
the designator and advances; a completed iteration advances. -/
def rebuildStep (s : RebuildState) (entry : Entry) : RebuildState :=
  let componentId := entry.1.1
  let component := entry.1.2
  let env := entry.2
  match placeComponent env.place component s.currentX s.currentY componentId with
  | some layoutInfo =>
    let s1 := { s with components := s.components ++ [layoutInfo] }
    match env.wire with
    | .throws =>
      { s1 with notFoundComponents :=
          s1.notFoundComponents ++ [component.props.Designator] }
    | .ok _ => advance s1
  | none =>
    advance { s with notFoundComponents :=
        s.notFoundComponents ++ [component.props.Designator] }

/-- The full rebuildSchematic loop as a fold over the netlist entries. -/
def runRebuild (entries : List Entry) : RebuildState :=
  entries.foldl rebuildStep initialState

/-- The summary figures computed at lines 191-193 of the source. -/
structure ReconstructionSummary where
  total : Nat
  succeeded : Nat
  failedDesignators : List String
deriving Repr, DecidableEq

/-- Embeds rebuildSchematic's observable outcome: the component total, the
success count (length of the accumulated layout list) and the failure
list. -/
def rebuildSchematic (entries : List Entry) : ReconstructionSummary :=
  let final := runRebuild entries
  { total := entries.length, succeeded := final.components.length,
    failedDesignators := final.notFoundComponents }

/-- The loop state after the first i iterations. -/
def stateAfter (entries : List Entry) (i : Nat) : RebuildState :=
  (entries.take i).foldl rebuildStep initialState

/-- The grid position handed to placeComponent on iteration i. -/
def attemptedPosition (entries : List Entry) (i : Nat) : ℚ × ℚ :=
  ((stateAfter entries i).currentX, (stateAfter entries i).currentY)

/-- The layout planner's position as a pure function of the zero-based
attempt index, following the advance rule of the loop. -/
def posAt : Nat → ℚ × ℚ
  | 0 => (20, 20)
  | n + 1 =>
    let p := posAt n
    if (n + 1) % maxComponentsPerRow = 0 then (20, p.2 + gridSize * 2)
    else (p.1 + gridSize * 3, p.2)

/-- Whether placeComponent yields a layout for this component under this
environment: the device resolves and the create call returns an instance. -/
def placeSucceeds (env : PlaceEnv) (component : NetlistComponent) : Bool :=
  (findDeviceInfo env.lib component).isSome && env.createOk

/-- Whether an iteration reaches the per-component catch block: the
placement succeeded and the subsequent wire synthesis raised. -/
def entryExcepts (e : Entry) : Bool :=
  placeSucceeds e.2.place e.1.2 && wireThrows e.2.wire

/-- Whether an iteration records the component in the failure list:
either the placement returned null, or it succeeded and the wire
synthesis raised. -/
def entryFails (e : Entry) : Bool :=
  !placeSucceeds e.2.place e.1.2 || wireThrows e.2.wire

/-- Whether the iteration's placement yields a layout. -/
def entrySucceeds (e : Entry) : Bool :=
  placeSucceeds e.2.place e.1.2

/-- A decoded JSON value, the possible results of the host JSON.parse
call used by parseNetlistData. -/
inductive JValue where
  | null
  | bool (b : Bool)
  | num (q : ℚ)
  | str (s : String)
  | arr (items : List JValue)
  | obj (fields : List (String × JValue))

/-- The JavaScript typeof operator on a decoded JSON value: null, arrays
and objects all have type object. -/
def jsTypeof : JValue → String
  | .null => "object"
  | .bool _ => "boolean"
  | .num _ => "number"
  | .str _ => "string"
  | .arr _ => "object"
  | .obj _ => "object"

/-- The JavaScript strict comparison of a decoded value against null. -/
def jvalueIsNull : JValue → Bool
  | .null => true
  | _ => false

/-- Embeds parseNetlistData (lines 118-130) over the outcome of the host
JSON.parse call: none models a parse exception on malformed text; a
decoded value is returned unchanged when its typeof is object and it is
not null, and rejected otherwise. -/
def parseNetlistData (parsed : Option JValue) : Option JValue :=
  match parsed with
  | none => none
  | some data =>
    if jsTypeof data = "object" ∧ jvalueIsNull data = false then some data
    else none

/-- Modelled from the spec: a decoded value counts as an object/mapping
exactly when it is a JSON object (a key-value mapping). -/
def specIsMapping : JValue → Bool
  | .obj _ => true
  | _ => false

/-- Modelled from the spec's words for comparison against the code: the
bounding box is the min/max extent of the pin coordinates alone, width
equal to the maximum pin x minus the minimum pin x and height likewise in
y, with zero width and height for a component with no pins. -/
def specComponentSize (pins : List Pin) (_x _y : ℚ) : ℚ × ℚ :=
  match pins with
  | [] => (0, 0)
  | p :: ps =>
    (ps.foldl (fun m q => max m q.x) p.x - ps.foldl (fun m q => min m q.x) p.x,
     ps.foldl (fun m q => max m q.y) p.y - ps.foldl (fun m q => min m q.y) p.y)

/-- Concrete device library fixture: both lookups succeed. -/
def lib0 : DeviceLib :=
  { getByLcscIds := fun _ => [{ uuid := "u", name := "n" }],
    search := fun _ => [{ uuid := "u2", name := "n2" }] }

/-- Concrete component fixture with a supplier part and a device name. -/
def comp0 : NetlistComponent :=
  { props := { Designator := "R1", device_name := "res", value := "10k",
               supplierPart := "C123" },
    pins := [] }

/-- Concrete component fixture whose identity fields are all empty, so
device resolution fails; its designator is the empty string. -/
def compEmpty : NetlistComponent :=
  { props := { Designator := "", device_name := "", value := "",
               supplierPart := "" },
    pins := [] }

/-- Per-component environment in which every external call succeeds. -/
def env0 : CompEnv :=
  { place := { lib := lib0, createOk := true, primitiveId := "pid",
               modifyOk := true, pinsResult := some [] },
    wire := .ok (some []) }

/-- Per-component environment whose wire-synthesis step raises. -/
def envT : CompEnv :=
  { place := env0.place, wire := .throws }

/-- Concrete realized pin fixture. -/
def pin0 : Pin := { pinNumber := "1", x := 5, y := 7 }

/-- Concrete placed-component fixture of width 10 with one realized pin. -/
def layout0 : ComponentLayout :=
  { primitiveId := "p", componentId := "c", x := 0, y := 0,
    width := 10, height := 0, pins := [pin0] }

/-- Concrete netlist fixture declaring one pin on net vcc for layout0. -/
def netlist0 : List (String × NetlistComponent) :=
  [("c", { props := comp0.props, pins := [("1", "vcc")] })]

/-- The stub synthesized for pin0 of layout0 on net vcc. -/
def wire0 : Wire := makeWireStub layout0 pin0 "vcc"

/-- Concrete pin fixture lying strictly to the right of its placement
coordinate, exposing the placement anchor inside the bounding box fold. -/
def pinFar : Pin := { pinNumber := "1", x := 120, y := 20 }

/-- Two-component run in which every external call succeeds. -/
def entriesA : List Entry := [(("a", comp0), env0), (("b", comp0), env0)]

/-- The same netlist as entriesA, but the first component's wire
synthesis raises, reaching the per-component catch block. -/
def entriesB : List Entry := [(("a", comp0), envT), (("b", comp0), env0)]

/-- The same netlist shape with the first component failing device
resolution (placement returns null) and the second succeeding. -/
def entriesMixed : List Entry :=
  [(("a", compEmpty), env0), (("b", comp0), env0)]

/-- One-component run whose component has an empty designator and fails
device resolution. -/
def entriesC4 : List Entry := [(("compX", compEmpty), env0)]

/-- One-component run whose component places successfully but whose wire
synthesis raises. -/
def entriesC10 : List Entry := [(("a", comp0), envT)]

/-- A decoded value compares unequal to null exactly when the strict
null check of the source is false. -/
lemma jvalueIsNull_eq_false (v : JValue) :
    jvalueIsNull v = false ↔ v ≠ JValue.null := by
  cases v <;> simp [jvalueIsNull]

/-- C1: device resolution follows a two-stage priority with no further
stages once a match is found: when supplierPart is non-empty and the
supplier-id lookup is non-empty, the first lookup element is returned and
the name-search path is never invoked (the invocation flag is false);
otherwise, when deviceName is non-empty and the name search is non-empty,
its first element is returned; when neither stage yields a result the
resolution returns none. -/
theorem claim1_resolver_two_stage_priority (lib : DeviceLib)
    (c : NetlistComponent) :
    (c.props.supplierPart ≠ "" → lib.getByLcscIds c.props.supplierPart ≠ [] →
      findDeviceInfoT lib c
        = ((lib.getByLcscIds c.props.supplierPart).head?, false))
    ∧ ((c.props.supplierPart = "" ∨ lib.getByLcscIds c.props.supplierPart = []) →
        c.props.device_name ≠ "" → lib.search c.props.device_name ≠ [] →
        findDeviceInfo lib c = (lib.search c.props.device_name).head?)
    ∧ ((c.props.supplierPart = "" ∨ lib.getByLcscIds c.props.supplierPart = []) →
        (c.props.device_name = "" ∨ lib.search c.props.device_name = []) →
        findDeviceInfo lib c = none) := by
  by_cases hsp : c.props.supplierPart = "" <;>
    rcases hl : lib.getByLcscIds c.props.supplierPart with _ | ⟨d, ds⟩ <;>
    by_cases hdn : c.props.device_name = "" <;>
    rcases hs : lib.search c.props.device_name with _ | ⟨e, es⟩ <;>
    simp [findDeviceInfo, findDeviceInfoT, hsp, hl, hdn, hs]

/-- Witness for C1 at a concrete record carrying both a supplier part and
a device name: the supplier-part lookup result is used and the name
search is not invoked. -/
theorem claim1_witness :
    findDeviceInfoT lib0 comp0 = (some { uuid := "u", name := "n" }, false) := by
  have h := (claim1_resolver_two_stage_priority lib0 comp0).1
    (by decide) (by simp [lib0])
  simpa [lib0] using h

/-- Counterexample to C6 as stated: a JSON array is not an object/mapping,
yet parseNetlistData accepts it and returns it unchanged, so parsing does
not succeed exactly on mappings. -/
theorem claim6_counterexample :
    parseNetlistData (some (JValue.arr [])) = some (JValue.arr [])
    ∧ specIsMapping (JValue.arr []) = false := ⟨rfl, rfl⟩

/-- C6 as amended: parseNetlistData succeeds exactly when the host
JSON.parse produced a decoded value whose JavaScript typeof is object and
which is not null — this includes arrays as well as objects; malformed
text (a parse exception, modelled as none) and the decoded value null
both fail. -/
theorem claim6_amended_parse :
    (∀ r : Option JValue, (parseNetlistData r).isSome
      ↔ ∃ v, r = some v ∧ jsTypeof v = "object" ∧ v ≠ JValue.null)
    ∧ parseNetlistData none = none
    ∧ parseNetlistData (some JValue.null) = none := by
  refine ⟨?_, rfl, rfl⟩
  intro r
  cases r with
  | none => simp [parseNetlistData]
  | some v =>
    simp only [parseNetlistData]
    by_cases h : jsTypeof v = "object" ∧ jvalueIsNull v = false
    · rw [if_pos h]
      simp only [Option.isSome_some]
      constructor
      · intro _
        exact ⟨v, rfl, h.1, (jvalueIsNull_eq_false v).mp h.2⟩
      · intro _
        trivial
    · rw [if_neg h]
      simp only [Option.isSome_none]
      constructor
      · intro hfalse
        exact absurd hfalse (by decide)
      · rintro ⟨w, hw, hobj, hnull⟩
        injection hw with hww
        subst hww
        exact absurd ⟨hobj, (jvalueIsNull_eq_false _).mpr hnull⟩ h

/-- The four-component extremum fold of calculateComponentSize computes
the componentwise folds of min and max over the pin coordinates. -/
lemma calcSize_fold_split (pins : List Pin) (a b c d : ℚ) :
    pins.foldl
      (fun (t : ℚ × ℚ × ℚ × ℚ) pin =>
        (min t.1 pin.x, max t.2.1 pin.x, min t.2.2.1 pin.y, max t.2.2.2 pin.y))
      (a, b, c, d)
    = ((pins.map Pin.x).foldl min a, (pins.map Pin.x).foldl max b,
       (pins.map Pin.y).foldl min c, (pins.map Pin.y).foldl max d) := by
  induction pins generalizing a b c d with
  | nil => rfl
  | cons p ps ih => simp only [List.foldl_cons, List.map_cons, ih]

/-- Counterexample to C5 as stated: for a single pin at x = 120 placed at
(20, 20), the code's width is 100 because the running extrema start at the
placement coordinate, while the min/max extent of the pin coordinates
alone would give width 0. -/
theorem claim5_counterexample :
    calculateComponentSize [pinFar] 20 20 = (100, 0)
    ∧ specComponentSize [pinFar] 20 20 = (0, 0)
    ∧ ((100 : ℚ), (0 : ℚ)) ≠ ((0 : ℚ), (0 : ℚ)) := by
  refine ⟨?_, ?_, by norm_num⟩
  · simp only [calculateComponentSize, pinFar, List.foldl_cons, List.foldl_nil]
    norm_num
  · simp only [specComponentSize, List.foldl_nil]
    norm_num

/-- C5 as amended: the computed bounding box is the min/max extent of the
realized pin coordinates taken together with the placement coordinate:
width is the maximum of the placement x and all pin x minus the minimum of
the placement x and all pin x, height likewise in y; a component with zero
pins gets width 0 and height 0, anchored at the placement coordinate. -/
theorem claim5_amended_bounding_box :
    (∀ (pins : List Pin) (x y : ℚ),
      calculateComponentSize pins x y
        = ((pins.map Pin.x).foldl max x - (pins.map Pin.x).foldl min x,
           (pins.map Pin.y).foldl max y - (pins.map Pin.y).foldl min y))
    ∧ (∀ x y : ℚ, calculateComponentSize [] x y = (0, 0)) := by
  constructor
  · intro pins x y
    simp only [calculateComponentSize, calcSize_fold_split]
  · intro x y
    simp [calculateComponentSize]

/-- C7: every stub synthesized by createNetWiresForSingleComponent starts
at a realized pin (px, py), stays horizontal, and extends by the fixed
length 30 rightward when px is at least the component center
x + width / 2 (inclusive of equality) and leftward otherwise. -/
theorem claim7_wire_stub_direction (component : ComponentLayout)
    (netlistData : List (String × NetlistComponent))
    (actualPins : Option (List Pin)) (w : Wire)
    (hw : w ∈ createNetWiresForSingleComponent component netlistData actualPins) :
    ∃ pins, actualPins = some pins ∧ ∃ p ∈ pins,
      w.x1 = p.x ∧ w.y1 = p.y ∧ w.y2 = p.y ∧ wireLength = 30
      ∧ (p.x ≥ component.x + component.width / 2 → w.x2 = p.x + wireLength)
      ∧ (¬ p.x ≥ component.x + component.width / 2 → w.x2 = p.x - wireLength) := by
  unfold createNetWiresForSingleComponent at hw
  rcases hlk : lookupComponent netlistData component.componentId with _ | cd
  · rw [hlk] at hw
    exact absurd hw (List.not_mem_nil w)
  · rw [hlk] at hw
    unfold wiresForPins at hw
    rcases List.mem_filterMap.mp hw with ⟨entry, _, heq⟩
    cases actualPins with
    | none => exact absurd heq (by simp)
    | some pins =>
      refine ⟨pins, rfl, ?_⟩
      dsimp only at heq
      rcases hfind : pins.find? (fun pin => pin.pinNumber == entry.1) with _ | p
      · rw [hfind] at heq
        exact absurd heq (by simp)
      · rw [hfind] at heq
        have hwp : w = makeWireStub component p entry.2 :=
          (Option.some.inj heq).symm
        refine ⟨p, List.mem_of_find?_eq_some hfind, ?_⟩
        subst hwp
        unfold makeWireStub
        by_cases hc : p.x ≥ component.x + component.width / 2
        · simp [hc, wireLength]
        · simp [hc, wireLength]

/-- Witness for C7 on a concrete single-pin run: the stub synthesized for
pin0 of layout0 satisfies the per-wire direction contract. -/
theorem claim7_witness :
    ∃ pins, (some [pin0] : Option (List Pin)) = some pins ∧ ∃ p ∈ pins,
      wire0.x1 = p.x ∧ wire0.y1 = p.y ∧ wire0.y2 = p.y ∧ wireLength = 30
      ∧ (p.x ≥ layout0.x + layout0.width / 2 → wire0.x2 = p.x + wireLength)
      ∧ (¬ p.x ≥ layout0.x + layout0.width / 2 →
          wire0.x2 = p.x - wireLength) := by
  apply claim7_wire_stub_direction layout0 netlist0 (some [pin0]) wire0
  simp [createNetWiresForSingleComponent, lookupComponent, netlist0,
        wiresForPins, wire0, layout0, pin0]

/-- A valid scalar value round-trips through Char.ofNat. -/
lemma char_toNat_ofNat_valid (n : Nat) (h : n.isValidChar) :
    (Char.ofNat n).toNat = n := by
  simp [Char.ofNat, h, Char.ofNatAux, Char.toNat, UInt32.toNat]

/-- Uppercasing after lowercasing agrees with uppercasing directly, on
every character of the basic latin case mapping. -/
lemma char_toUpper_toLower (c : Char) : c.toLower.toUpper = c.toUpper := by
  by_cases h : c.toNat ≥ 65 ∧ c.toNat ≤ 90
  · have hval : (c.toNat + 32).isValidChar := Or.inl (by omega)
    have h1 : c.toLower = Char.ofNat (c.toNat + 32) := by
      simp only [Char.toLower]
      rw [if_pos h]
    have h2 : (Char.ofNat (c.toNat + 32)).toNat = c.toNat + 32 :=
      char_toNat_ofNat_valid _ hval
    rw [h1]
    simp only [Char.toUpper, h2]
    rw [if_pos ⟨by omega, by omega⟩, if_neg (by omega),
        Nat.add_sub_cancel, Char.ofNat_toNat]
  · have h1 : c.toLower = c := by
      simp only [Char.toLower]
      rw [if_neg h]
    rw [h1]

/-- Mapping to upper case factors through mapping to lower case. -/
lemma map_toUpper_toLower (l : List Char) :
    (l.map Char.toLower).map Char.toUpper = l.map Char.toUpper := by
  rw [List.map_map]
  exact List.map_congr_left (fun c _ => char_toUpper_toLower c)

/-- Strings equal after lowercasing are equal after uppercasing. -/
lemma jsUpper_congr_of_lower_eq {s t : String}
    (h : jsToLowerCase s = jsToLowerCase t) :
    jsToUpperCase s = jsToUpperCase t := by
  have hd : s.data.map Char.toLower = t.data.map Char.toLower := by
    have hc := congrArg String.data h
    simpa [jsToLowerCase] using hc
  have he : s.data.map Char.toUpper = t.data.map Char.toUpper := by
    rw [← map_toUpper_toLower s.data, hd, map_toUpper_toLower]
  show (⟨s.data.map Char.toUpper⟩ : String) = ⟨t.data.map Char.toUpper⟩
  rw [he]

/-- C8: every synthesized stub carries the net name uppercased as its
label, so net names that agree after case folding produce identical label
strings; in particular the net names vcc and VCC both yield the label
VCC. -/
theorem claim8_net_label_uppercase :
    (∀ (component : ComponentLayout) (pin : Pin) (s t : String),
      jsToLowerCase s = jsToLowerCase t →
      (makeWireStub component pin s).label = (makeWireStub component pin t).label)
    ∧ (∀ (component : ComponentLayout) (pin : Pin),
        (makeWireStub component pin "vcc").label = "VCC"
        ∧ (makeWireStub component pin "VCC").label = "VCC") := by
  constructor
  · intro component pin s t h
    show jsToUpperCase s = jsToUpperCase t
    exact jsUpper_congr_of_lower_eq h
  · intro component pin
    constructor
    · show jsToUpperCase "vcc" = "VCC"
      decide
    · show jsToUpperCase "VCC" = "VCC"
      decide

/-- Witness for C8 at the concrete net names vcc and VCC, which differ
only in case: the two stub labels are the same string. -/
theorem claim8_witness :
    (makeWireStub layout0 pin0 "vcc").label
      = (makeWireStub layout0 pin0 "VCC").label :=
  claim8_net_label_uppercase.1 layout0 pin0 "vcc" "VCC" (by decide)

/-- The attribute-gating condition of modifyComponentProperties reduces
to the trimmed field being non-empty. -/
lemma modify_gate (s : String) :
    ((if s ≠ "" ∧ jsTrim s ≠ "" then some s else none) ≠ none
      ↔ jsTrim s ≠ "") := by
  by_cases hb : jsTrim s = ""
  · simp [hb]
  · have ha : s ≠ "" := by
      intro he
      apply hb
      rw [he]
      decide
    simp [ha, hb]

/-- C9: best-effort failures are swallowed locally.  First, the outcome of
placeComponent does not depend on whether the attribute mutation call
succeeds.  Second, the mutation only sets designator and name for fields
that are non-empty after trimming.  Third, a declared pin number with no
matching realized pin is skipped: removing such an entry leaves the stubs
of the other pins unchanged. -/
theorem claim9_best_effort_isolation :
    (∀ (lib : DeviceLib) (createOk : Bool) (pid : String) (b1 b2 : Bool)
       (pins : Option (List Pin)) (component : NetlistComponent)
       (x y : ℚ) (cid : String),
      placeComponent
          { lib := lib, createOk := createOk, primitiveId := pid,
            modifyOk := b1, pinsResult := pins } component x y cid
        = placeComponent
          { lib := lib, createOk := createOk, primitiveId := pid,
            modifyOk := b2, pinsResult := pins } component x y cid)
    ∧ (∀ component : NetlistComponent,
        ((modifyComponentProperties component).designator ≠ none
          ↔ jsTrim component.props.Designator ≠ "")
        ∧ ((modifyComponentProperties component).name ≠ none
          ↔ jsTrim component.props.value ≠ ""))
    ∧ (∀ (component : ComponentLayout) (pre post : List (String × String))
         (pn net : String) (pins : List Pin),
        (∀ p ∈ pins, p.pinNumber ≠ pn) →
        wiresForPins component (pre ++ (pn, net) :: post) (some pins)
          = wiresForPins component (pre ++ post) (some pins)) := by
  refine ⟨?_, ?_, ?_⟩
  · intro lib createOk pid b1 b2 pins component x y cid
    rfl
  · intro component
    exact ⟨modify_gate component.props.Designator,
           modify_gate component.props.value⟩
  · intro component pre post pn net pins hmiss
    have hfind : pins.find? (fun pin => pin.pinNumber == pn) = none := by
      apply List.find?_eq_none.mpr
      intro p hp
      simpa using hmiss p hp
    simp [wiresForPins, List.filterMap_append, List.filterMap_cons, hfind]

/-- Witness for C9 part three on concrete data: the declared pin number 9
matches no realized pin of layout0, and dropping that entry leaves the
stub list unchanged. -/
theorem claim9_witness :
    wiresForPins layout0 [("1", "vcc"), ("9", "gnd")] (some [pin0])
      = wiresForPins layout0 [("1", "vcc")] (some [pin0]) :=
  claim9_best_effort_isolation.2.2 layout0 [("1", "vcc")] [] "9" "gnd" [pin0]
    (by decide)

/-- placeComponent yields a layout exactly when the device resolves and
the create call returns an instance. -/
lemma placeComponent_isSome (env : PlaceEnv) (c : NetlistComponent)
    (x y : ℚ) (cid : String) :
    (placeComponent env c x y cid).isSome = placeSucceeds env c := by
  unfold placeComponent placeSucceeds
  cases h : findDeviceInfo env.lib c with
  | none => simp [h]
  | some d => cases env.createOk <;> simp [h]

/-- The advance block leaves the accumulated layouts unchanged. -/
lemma advance_components (s : RebuildState) :
    (advance s).components = s.components := by
  simp only [advance]
  split <;> rfl

/-- The advance block leaves the failure list unchanged. -/
lemma advance_notFound (s : RebuildState) :
    (advance s).notFoundComponents = s.notFoundComponents := by
  simp only [advance]
  split <;> rfl

/-- The advance block increments the attempt counter. -/
lemma advance_count (s : RebuildState) :
    (advance s).componentCount = s.componentCount + 1 := by
  simp only [advance]
  split <;> rfl

/-- The advance block's horizontal move. -/
lemma advance_x (s : RebuildState) :
    (advance s).currentX
      = if (s.componentCount + 1) % maxComponentsPerRow = 0 then (20 : ℚ)
        else s.currentX + gridSize * 3 := by
  simp only [advance]
  split <;> simp_all

/-- The advance block's vertical move. -/
lemma advance_y (s : RebuildState) :
    (advance s).currentY
      = if (s.componentCount + 1) % maxComponentsPerRow = 0
        then s.currentY + gridSize * 2
        else s.currentY := by
  simp only [advance]
  split <;> simp_all

/-- One loop iteration appends the designator to the failure list exactly
when the entry fails. -/
lemma rebuildStep_notFound (s : RebuildState) (e : Entry) :
    (rebuildStep s e).notFoundComponents
      = s.notFoundComponents
        ++ (if entryFails e then [e.1.2.props.Designator] else []) := by
  unfold rebuildStep entryFails
  have hps := placeComponent_isSome e.2.place e.1.2 s.currentX s.currentY e.1.1
  cases hp : placeComponent e.2.place e.1.2 s.currentX s.currentY e.1.1 with
  | none =>
    rw [hp] at hps
    simp [hp, advance_notFound, ← hps]
  | some l =>
    rw [hp] at hps
    cases hw : e.2.wire with
    | throws => simp [hp, hw, ← hps, wireThrows]
    | ok ap => simp [hp, hw, advance_notFound, ← hps, wireThrows]

/-- One loop iteration appends one layout exactly when the placement
succeeds, whether or not the wire synthesis then raises. -/
lemma rebuildStep_components_length (s : RebuildState) (e : Entry) :
    (rebuildStep s e).components.length
      = s.components.length + (if entrySucceeds e then 1 else 0) := by
  unfold rebuildStep entrySucceeds
  have hps := placeComponent_isSome e.2.place e.1.2 s.currentX s.currentY e.1.1
  cases hp : placeComponent e.2.place e.1.2 s.currentX s.currentY e.1.1 with
  | none =>
    rw [hp] at hps
    simp [hp, advance_components, ← hps]
  | some l =>
    rw [hp] at hps
    cases hw : e.2.wire with
    | throws => simp [hp, hw, ← hps]
    | ok ap => simp [hp, hw, advance_components, ← hps]

/-- An iteration that does not raise advances the counter and the grid
cursor exactly as the advance block, regardless of placement success. -/
lemma rebuildStep_advances (s : RebuildState) (e : Entry)
    (h : entryExcepts e = false) :
    (rebuildStep s e).componentCount = s.componentCount + 1
    ∧ (rebuildStep s e).currentX
      = (if (s.componentCount + 1) % maxComponentsPerRow = 0 then (20 : ℚ)
         else s.currentX + gridSize * 3)
    ∧ (rebuildStep s e).currentY
      = (if (s.componentCount + 1) % maxComponentsPerRow = 0
         then s.currentY + gridSize * 2
         else s.currentY) := by
  unfold rebuildStep
  have hps := placeComponent_isSome e.2.place e.1.2 s.currentX s.currentY e.1.1
  cases hp : placeComponent e.2.place e.1.2 s.currentX s.currentY e.1.1 with
  | none =>
    simp [hp, advance_count, advance_x, advance_y]
  | some l =>
    rw [hp] at hps
    cases hw : e.2.wire with
    | throws =>
      exfalso
      unfold entryExcepts at h
      rw [hw] at h
      simp [← hps, wireThrows] at h
    | ok ap =>
      simp [hp, hw, advance_count, advance_x, advance_y]

/-- The failure list accumulated by the loop is the ordered designators of
the failing entries, appended to the starting list. -/
lemma foldl_notFound (entries : List Entry) (s : RebuildState) :
    (entries.foldl rebuildStep s).notFoundComponents
      = s.notFoundComponents
        ++ entries.filterMap
            (fun e => if entryFails e then some e.1.2.props.Designator
                      else none) := by
  induction entries generalizing s with
  | nil => simp
  | cons e es ih =>
    rw [List.foldl_cons, ih, rebuildStep_notFound, List.filterMap_cons]
    by_cases hf : entryFails e <;> simp [hf]

/-- The layout count accumulated by the loop is the number of entries
whose placement succeeds. -/
lemma foldl_components_length (entries : List Entry) (s : RebuildState) :
    (entries.foldl rebuildStep s).components.length
      = s.components.length + entries.countP entrySucceeds := by
  induction entries generalizing s with
  | nil => simp
  | cons e es ih =>
    rw [List.foldl_cons, ih, rebuildStep_components_length, List.countP_cons]
    by_cases hp : entrySucceeds e
    · simp [hp]
      omega
    · simp [hp]

/-- In a run without per-component exceptions, after i iterations the
counter equals i and the grid cursor sits at posAt i. -/
lemma stateAfter_pos (entries : List Entry)
    (hok : ∀ e ∈ entries, entryExcepts e = false) :
    ∀ i, i ≤ entries.length →
      (stateAfter entries i).componentCount = i
      ∧ ((stateAfter entries i).currentX, (stateAfter entries i).currentY)
        = posAt i := by
  intro i
  induction i with
  | zero => intro _; exact ⟨rfl, rfl⟩
  | succ n ih =>
    intro hlen
    have hn := ih (Nat.le_of_succ_le hlen)
    have hnl : n < entries.length := hlen
    have htake : entries.take (n + 1)
        = entries.take n ++ (entries[n]?).toList := List.take_succ
    have hget : entries[n]? = some entries[n] := List.getElem?_eq_getElem hnl
    have hstep : stateAfter entries (n + 1)
        = rebuildStep (stateAfter entries n) entries[n] := by
      rw [stateAfter, htake, hget, List.foldl_append]
      rfl
    have hmem : entries[n] ∈ entries := List.getElem_mem hnl
    have hadv := rebuildStep_advances (stateAfter entries n) entries[n]
      (hok _ hmem)
    have hx : (stateAfter entries n).currentX = (posAt n).1 := by rw [← hn.2]
    have hy : (stateAfter entries n).currentY = (posAt n).2 := by rw [← hn.2]
    rw [hstep]
    refine ⟨by rw [hadv.1, hn.1], ?_⟩
    rw [hadv.2.1, hadv.2.2, hn.1, hx, hy]
    conv_rhs => rw [posAt]
    by_cases hmod : (n + 1) % maxComponentsPerRow = 0 <;> simp [hmod]

/-- Counting a disjunction of pointwise-disjoint predicates splits into a
sum of counts. -/
lemma countP_or_disjoint {α : Type} (p q : α → Bool) (l : List α)
    (h : ∀ a ∈ l, ¬(p a = true ∧ q a = true)) :
    l.countP (fun a => p a || q a) = l.countP p + l.countP q := by
  induction l with
  | nil => rfl
  | cons a l ih =>
    have ha := h a (List.mem_cons_self a l)
    have hl : ∀ b ∈ l, ¬(p b = true ∧ q b = true) :=
      fun b hb => h b (List.mem_cons_of_mem a hb)
    by_cases hp : p a = true <;> by_cases hq : q a = true
    · exact absurd ⟨hp, hq⟩ ha
    · simp only [List.countP_cons, hp, hq, ih hl, Bool.or_false]
      simp [hp]
      omega
    · simp only [List.countP_cons, hp, hq, ih hl]
      simp [Bool.eq_false_iff.mpr hp, hq]
      omega
    · simp only [List.countP_cons, ih hl]
      simp [Bool.eq_false_iff.mpr hp, Bool.eq_false_iff.mpr hq]

/-- A predicate and its negation count up to the length. -/
lemma countP_add_countP_not {α : Type} (p : α → Bool) (l : List α) :
    l.countP p + l.countP (fun a => !p a) = l.length := by
  induction l with
  | nil => rfl
  | cons a l ih =>
    by_cases hp : p a = true <;>
      simp [List.countP_cons, hp, ← ih] <;> omega

/-- The length of the conditional filterMap used for the failure list is
the count of the gating predicate. -/
lemma length_filterMap_ite {α β : Type} (p : α → Bool) (f : α → β)
    (l : List α) :
    (l.filterMap (fun a => if p a then some (f a) else none)).length
      = l.countP p := by
  induction l with
  | nil => rfl
  | cons a l ih =>
    rw [List.filterMap_cons]
    by_cases hp : p a = true <;> simp [hp, List.countP_cons, ih]

/-- Counterexample to C2 as stated: the grid position of the attempt at
zero-based index 1 is not a function of the index alone — in a run whose
first component raises a per-component exception during wire synthesis,
attempt index 1 sits at (20, 20), not at the position (320, 20) that the
stated recurrence assigns to index 1. -/
theorem claim2_counterexample :
    attemptedPosition entriesB 1 = (20, 20)
    ∧ posAt 1 = (320, 20)
    ∧ ((20 : ℚ), (20 : ℚ)) ≠ ((320 : ℚ), (20 : ℚ)) := by
  refine ⟨?_, ?_, by norm_num⟩
  · simp [attemptedPosition, stateAfter, rebuildStep, initialState, advance,
      placeComponent, findDeviceInfo, findDeviceInfoT, entriesB, lib0, comp0,
      env0, envT, maxComponentsPerRow, gridSize, calculateComponentSize]
  · norm_num [posAt, gridSize, maxComponentsPerRow]

/-- C2 as amended: in a run without per-component exceptions, the grid
position handed to the attempt at zero-based index i is a function of i
only, starting at (20, 20), advancing x by 3 times gridSize within a row,
and after maxComponentsPerRow attempts resetting x to 20 and advancing y
by 2 times gridSize; in particular the attempt at index 15 lands at
x = 20, y = 220.  In a run containing a per-component exception the catch
block skips the advance, so later attempts deviate from this function. -/
theorem claim2_layout_position_of_index :
    (∀ entries : List Entry, (∀ e ∈ entries, entryExcepts e = false) →
      ∀ i, i < entries.length → attemptedPosition entries i = posAt i)
    ∧ posAt 0 = (20, 20)
    ∧ (∀ n : Nat, posAt (n + 1)
        = if (n + 1) % maxComponentsPerRow = 0
          then ((20 : ℚ), (posAt n).2 + gridSize * 2)
          else ((posAt n).1 + gridSize * 3, (posAt n).2))
    ∧ posAt 15 = (20, 220) := by
  refine ⟨?_, rfl, ?_, ?_⟩
  · intro entries hok i hi
    exact (stateAfter_pos entries hok i (Nat.le_of_lt hi)).2
  · intro n
    simp only [posAt]
  · norm_num [posAt, gridSize, maxComponentsPerRow]

/-- Witness for C2 on a concrete run whose first component fails device
resolution: the second attempt still sits at the index-1 grid position. -/
theorem claim2_witness : attemptedPosition entriesMixed 1 = posAt 1 :=
  claim2_layout_position_of_index.1 entriesMixed (by decide) 1 (by decide)

/-- Counterexample to C3 as stated: two runs over the same two-component
netlist that differ only in that the first component fails by a
per-component exception (its wire synthesis raises) give the second
attempted component different grid positions, because the catch block
skips the position advance. -/
theorem claim3_counterexample :
    attemptedPosition entriesA 1 = (320, 20)
    ∧ attemptedPosition entriesB 1 = (20, 20)
    ∧ ((320 : ℚ), (20 : ℚ)) ≠ ((20 : ℚ), (20 : ℚ)) := by
  refine ⟨?_, ?_, by norm_num⟩
  · simp [attemptedPosition, stateAfter, rebuildStep, initialState, advance,
      placeComponent, findDeviceInfo, findDeviceInfoT, entriesA, lib0, comp0,
      env0, maxComponentsPerRow, gridSize, calculateComponentSize]
    norm_num
  · simp [attemptedPosition, stateAfter, rebuildStep, initialState, advance,
      placeComponent, findDeviceInfo, findDeviceInfoT, entriesB, lib0, comp0,
      env0, envT, maxComponentsPerRow, gridSize, calculateComponentSize]

/-- C3 as amended: position advancement is decoupled from placement
success for failures by device resolution or instantiation (where
placement returns null): any two runs of equal length without
per-component exceptions give every attempted component the same grid
position, whichever placements fail. -/
theorem claim3_amended_position_invariance :
    ∀ (ea eb : List Entry), ea.length = eb.length →
    (∀ e ∈ ea, entryExcepts e = false) →
    (∀ e ∈ eb, entryExcepts e = false) →
    ∀ i, i < ea.length →
      attemptedPosition ea i = attemptedPosition eb i := by
  intro ea eb hlen hae hbe i hi
  have ha := (stateAfter_pos ea hae i (Nat.le_of_lt hi)).2
  have hb := (stateAfter_pos eb hbe i (Nat.le_of_lt (hlen ▸ hi))).2
  exact ha.trans hb.symm

/-- Witness for C3 as amended: a run whose first component fails device
resolution and a run with no failures agree on the position of the second
attempt. -/
theorem claim3_witness :
    attemptedPosition entriesMixed 1 = attemptedPosition entriesA 1 :=
  claim3_amended_position_invariance entriesMixed entriesA rfl
    (by decide) (by decide) 1 (by decide)

/-- Counterexample to C4 as stated: a failing component with an empty
designator is recorded as the empty string, not as its component id. -/
theorem claim4_counterexample :
    (rebuildSchematic entriesC4).failedDesignators = [""]
    ∧ ("" : String) ≠ "compX" := ⟨by decide, by decide⟩

/-- C4 as amended: the failure list records, in order, exactly the
designator of every component whose processing fails (placement returned
null, or a per-component exception), with no fallback to the component id
when the designator is empty. -/
theorem claim4_amended_failed_designators :
    ∀ entries : List Entry,
      (rebuildSchematic entries).failedDesignators
        = entries.filterMap
            (fun e => if entryFails e then some e.1.2.props.Designator
                      else none) := by
  intro entries
  show (runRebuild entries).notFoundComponents = _
  rw [runRebuild, foldl_notFound]
  simp [initialState]

/-- C10: a component that places successfully but whose wire synthesis
raises is counted in the succeeded count and also recorded in the failure
list, so whenever such a component exists the summary's succeeded count
plus failed count exceeds the total. -/
theorem claim10_succeeded_plus_failed_exceeds_total :
    ∀ entries : List Entry,
      (∃ e ∈ entries, entrySucceeds e = true ∧ e.2.wire = WireStep.throws) →
      ((rebuildSchematic entries).succeeded
          + (rebuildSchematic entries).failedDesignators.length
        > (rebuildSchematic entries).total)
      ∧ ∀ e ∈ entries, entrySucceeds e = true → e.2.wire = WireStep.throws →
          e.1.2.props.Designator
            ∈ (rebuildSchematic entries).failedDesignators := by
  intro entries hex
  have hsucc : (rebuildSchematic entries).succeeded
      = entries.countP entrySucceeds := by
    show (runRebuild entries).components.length = _
    rw [runRebuild, foldl_components_length]
    simp [initialState]
  have hfailList : (rebuildSchematic entries).failedDesignators
      = entries.filterMap
          (fun e => if entryFails e then some e.1.2.props.Designator
                    else none) := by
    show (runRebuild entries).notFoundComponents = _
    rw [runRebuild, foldl_notFound]
    simp [initialState]
  have hflen : (rebuildSchematic entries).failedDesignators.length
      = entries.countP entryFails := by
    rw [hfailList, length_filterMap_ite]
  have htot : (rebuildSchematic entries).total = entries.length := rfl
  constructor
  · obtain ⟨e0, he0, hs0, hw0⟩ := hex
    have hpt : 0 < entries.countP
        (fun e => entrySucceeds e && wireThrows e.2.wire) :=
      List.countP_pos_iff.mpr ⟨e0, he0, by simp [hs0, hw0, wireThrows]⟩
    have hdisj : ∀ a ∈ entries,
        ¬((!entrySucceeds a) = true
          ∧ (entrySucceeds a && wireThrows a.2.wire) = true) := by
      intro a _
      cases hpa : entrySucceeds a <;> simp [hpa]
    have hsplit := countP_or_disjoint (fun e => !entrySucceeds e)
      (fun e => entrySucceeds e && wireThrows e.2.wire) entries hdisj
    have hnot := countP_add_countP_not entrySucceeds entries
    have hfun : entryFails
        = fun e => (!entrySucceeds e) || (entrySucceeds e && wireThrows e.2.wire) := by
      funext e
      unfold entryFails entrySucceeds
      cases hpe : placeSucceeds e.2.place e.1.2 <;>
        cases hte : wireThrows e.2.wire <;> rfl
    rw [hsucc, hflen, htot, hfun, hsplit]
    omega
  · intro e he hs hw
    rw [hfailList]
    apply List.mem_filterMap.mpr
    refine ⟨e, he, ?_⟩
    have hf : entryFails e = true := by
      unfold entryFails
      unfold entrySucceeds at hs
      rw [hw]
      simp [hs, wireThrows]
    rw [hf]
    simp

/-- Witness for C10 on a concrete one-component run that places and then
raises during wire synthesis: succeeded plus failed exceeds the total. -/
theorem claim10_witness :
    (rebuildSchematic entriesC10).succeeded
        + (rebuildSchematic entriesC10).failedDesignators.length
      > (rebuildSchematic entriesC10).total :=
  (claim10_succeeded_plus_failed_exceeds_total entriesC10
    ⟨(("a", comp0), envT), by simp [entriesC10], by decide, rfl⟩).1

end NetlistSchematic


